import Mathlib

/-!
Verification of the multi-provider LLM orchestration engine of the
`tds-p2-data-analyst-agent` repository.

We give a shallow embedding of the relevant parts of the source:

* `src/analyst_agent/llm_parser.py` — the tolerant response parser
  (`LLMParser.parse_response`, `_strip_backticks_if_needed`), including a
  model of Python's `json.loads` and of the two `re.search` patterns the
  fallback tier uses;
* `src/analyst_agent/utils/llm_clients.py` — the `_Breaker` circuit breaker
  and the per-provider invocation function `call_gemini` (effect-traced);
* `src/analyst_agent/llm_orchestrator.py` — `_run_api_loop` and
  `feedback_loop` (the iterative feedback state machine), with clocks,
  provider replies and sandbox executions supplied as oracles;
* `src/analyst_agent/utils/code_executor.py` — `run_code` and
  `_cleanup_container` over the module-level session state.

Python strings are modelled as `List Char` (ASCII fragment; Python's
Unicode-aware whitespace classes are modelled by their ASCII subsets, which
is all the repository's data ever exercises).  Machine-level details that no
theorem below depends on (float formatting in `str()`, surrogate pairs in
JSON `\uXXXX` escapes, `repr` quote selection) are modelled by simple total
stand-ins and flagged with comments at their definitions.
-/

namespace AnalystAgent

/-- Abbreviation: Python `str` values are lists of characters. -/
abbrev PStr := List Char

/-- Convert a Lean string literal to the `List Char` model. -/
def strL (s : String) : PStr := s.data

/-- Double-quote character. -/
def cQuote : Char := Char.ofNat 34

/-- Backslash character. -/
def cBackslash : Char := Char.ofNat 92

/-- Single-quote character. -/
def cApos : Char := Char.ofNat 39

/-- Left curly brace character. -/
def cLBrace : Char := Char.ofNat 123

/-- Right curly brace character. -/
def cRBrace : Char := Char.ofNat 125

/-- Python `str.strip()` whitespace (ASCII fragment): space, tab, newline,
carriage return, vertical tab, form feed.  The same class models the regex
`\s`. -/
def isPySpace (c : Char) : Bool :=
  c = ' ' || c = '\t' || c = '\n' || c = '\r' || c = Char.ofNat 11 || c = Char.ofNat 12

/-- Python `s.strip()`: drop leading and trailing whitespace. -/
def pstrip (l : PStr) : PStr :=
  List.rdropWhile isPySpace (l.dropWhile isPySpace)

/-- Python `s.lstrip(cs)` for an explicit character set. -/
def lstripSet (cs : PStr) (l : PStr) : PStr :=
  l.dropWhile (fun c => cs.contains c)

/-- Python `s.rstrip(cs)` for an explicit character set. -/
def rstripSet (cs : PStr) (l : PStr) : PStr :=
  List.rdropWhile (fun c => cs.contains c) l

/-- ASCII lower-casing of one character, modelling `str.lower()`. -/
def lowerAscii (c : Char) : Char :=
  if 'A' ≤ c ∧ c ≤ 'Z' then Char.ofNat (c.toNat + 32) else c

/-- Embedding of `LLMParser._strip_backticks_if_needed` (llm_parser.py lines 86-105):
remove Markdown code fences around the whole text. -/
def strip_backticks_if_needed (text : PStr) : PStr :=
  if text = [] then []
  else
    let fenceChars : PStr := ['\n', '\r', ' ']
    let t0 := pstrip text
    let t1 :=
      if (strL "```json").isPrefixOf (t0.map lowerAscii) then
        lstripSet fenceChars (t0.drop 7)
      else if (strL "```").isPrefixOf t0 then
        lstripSet fenceChars (t0.drop 3)
      else t0
    let t2 :=
      if (strL "```").isSuffixOf t1 then
        rstripSet fenceChars (List.rdrop t1 3)
      else t1
    pstrip t2

/-! ## A model of Python `json.loads`

The values `json.loads` can produce (`None`, `bool`, numbers, `str`,
`list`, `dict`) are modelled by `JVal`.  Numbers keep their source lexeme:
Python would convert them to `int`/`float`, whose `str()` rendering
(`1e2 ↦ 100.0`) is not modelled — no claim below inspects a numeric value. -/

inductive JVal where
  | jnull : JVal
  | jbool (b : Bool) : JVal
  | jnum (raw : PStr) : JVal
  | jstr (s : PStr) : JVal
  | jarr (xs : List JVal) : JVal
  | jobj (kvs : List (PStr × JVal)) : JVal

/-- JSON inter-token whitespace, exactly the characters of the
`json.decoder.WHITESPACE` regex: space, tab, newline, carriage return. -/
def jskip (s : PStr) : PStr :=
  s.dropWhile (fun c => c = ' ' || c = '\t' || c = '\n' || c = '\r')

/-- Value of one hex digit. -/
def hexVal (c : Char) : Option Nat :=
  if '0' ≤ c ∧ c ≤ '9' then some (c.toNat - '0'.toNat)
  else if 'a' ≤ c ∧ c ≤ 'f' then some (c.toNat - 'a'.toNat + 10)
  else if 'A' ≤ c ∧ c ≤ 'F' then some (c.toNat - 'A'.toNat + 10)
  else none

/-- Body of a JSON string after the opening quote, in strict mode: escape
sequences are decoded, unescaped control characters are rejected.  A
`\uXXXX` escape becomes `Char.ofNat` of its code (lone surrogates, which
Python tolerates, collapse to NUL here — no claim touches them).  Returns
the decoded body and the remainder after the closing quote. -/
def parseJString : Nat → PStr → Option (PStr × PStr)
  | 0, _ => none
  | _ + 1, [] => none
  | fuel + 1, c :: rest =>
    if c = cQuote then some ([], rest)
    else if c = cBackslash then
      match rest with
      | [] => none
      | e :: rest2 =>
        if e = cQuote then
          (parseJString fuel rest2).map (fun p => (cQuote :: p.1, p.2))
        else if e = cBackslash then
          (parseJString fuel rest2).map (fun p => (cBackslash :: p.1, p.2))
        else if e = '/' then
          (parseJString fuel rest2).map (fun p => ('/' :: p.1, p.2))
        else if e = 'b' then
          (parseJString fuel rest2).map (fun p => (Char.ofNat 8 :: p.1, p.2))
        else if e = 'f' then
          (parseJString fuel rest2).map (fun p => (Char.ofNat 12 :: p.1, p.2))
        else if e = 'n' then
          (parseJString fuel rest2).map (fun p => ('\n' :: p.1, p.2))
        else if e = 'r' then
          (parseJString fuel rest2).map (fun p => ('\r' :: p.1, p.2))
        else if e = 't' then
          (parseJString fuel rest2).map (fun p => ('\t' :: p.1, p.2))
        else if e = 'u' then
          match rest2 with
          | h1 :: h2 :: h3 :: h4 :: rest3 =>
            match hexVal h1, hexVal h2, hexVal h3, hexVal h4 with
            | some a, some b2, some c2, some d =>
              (parseJString fuel rest3).map
                (fun p => (Char.ofNat (((a * 16 + b2) * 16 + c2) * 16 + d) :: p.1, p.2))
            | _, _, _, _ => none
          | _ => none
        else none
    else if c.toNat < 32 then none
    else (parseJString fuel rest).map (fun p => (c :: p.1, p.2))

/-- Decimal digit test. -/
def isDigitC (c : Char) : Bool := '0' ≤ c && c ≤ '9'

/-- Optional fractional part `. [0-9]+` of a JSON number lexeme. -/
def lexFrac (s : PStr) : PStr × PStr :=
  match s with
  | '.' :: r =>
    let ds := r.takeWhile isDigitC
    if ds = [] then ([], s) else ('.' :: ds, r.drop ds.length)
  | _ => ([], s)

/-- Optional exponent part `[eE][+-]?[0-9]+` of a JSON number lexeme. -/
def lexExp (s : PStr) : PStr × PStr :=
  match s with
  | c :: r =>
    if c = 'e' ∨ c = 'E' then
      let (sg, r2) :=
        match r with
        | '+' :: r2 => ((['+'] : PStr), r2)
        | '-' :: r2 => ((['-'] : PStr), r2)
        | _ => (([] : PStr), r)
      let ds := r2.takeWhile isDigitC
      if ds = [] then ([], s) else (c :: (sg ++ ds), r2.drop ds.length)
    else ([], s)
  | [] => ([], s)

/-- Lex a JSON number per the `json.scanner` regex
`-? (0 | [1-9][0-9]*) (. [0-9]+)? ([eE][+-]?[0-9]+)?`; returns the lexeme
and the remainder. -/
def lexJNumber (s : PStr) : Option (PStr × PStr) :=
  let (sign, s1) :=
    match s with
    | '-' :: r => (['-'], r)
    | _ => (([] : PStr), s)
  match s1 with
  | [] => none
  | c :: r =>
    if c = '0' then
      let (frac, s2) := lexFrac r
      let (ex, s3) := lexExp s2
      some (sign ++ ['0'] ++ frac ++ ex, s3)
    else if isDigitC c then
      let ds := r.takeWhile isDigitC
      let s2 := r.drop ds.length
      let (frac, s3) := lexFrac s2
      let (ex, s4) := lexExp s3
      some (sign ++ (c :: ds) ++ frac ++ ex, s4)
    else none

mutual
/-- Parse one JSON value (after optional leading whitespace), modelling
  `json.loads`'s recursive-descent scanner.  Fuel bounds the nesting depth;
  `jsonLoads` supplies more fuel than any input can consume. -/
def parseJVal : Nat → PStr → Option (JVal × PStr)
    | 0, _ => none
    | fuel + 1, s =>
      match jskip s with
      | [] => none
      | c :: rest =>
        if c = cLBrace then
          match jskip rest with
          | c2 :: rest2 =>
            if c2 = cRBrace then some (JVal.jobj [], rest2)
            else parseJMembers fuel (jskip rest) []
          | [] => none
        else if c = '[' then
          match jskip rest with
          | c2 :: rest2 =>
            if c2 = ']' then some (JVal.jarr [], rest2)
            else parseJItems fuel (jskip rest) []
          | [] => none
        else if c = cQuote then
          (parseJString (rest.length + 1) rest).map (fun p => (JVal.jstr p.1, p.2))
        else if (strL "true").isPrefixOf (c :: rest) then
          some (JVal.jbool true, (c :: rest).drop 4)
        else if (strL "false").isPrefixOf (c :: rest) then
          some (JVal.jbool false, (c :: rest).drop 5)
        else if (strL "null").isPrefixOf (c :: rest) then
          some (JVal.jnull, (c :: rest).drop 4)
        else if (strL "NaN").isPrefixOf (c :: rest) then
          some (JVal.jnum (strL "NaN"), (c :: rest).drop 3)
        else if (strL "Infinity").isPrefixOf (c :: rest) then
          some (JVal.jnum (strL "Infinity"), (c :: rest).drop 8)
        else if (strL "-Infinity").isPrefixOf (c :: rest) then
          some (JVal.jnum (strL "-Infinity"), (c :: rest).drop 9)
        else
          (lexJNumber (c :: rest)).map (fun p => (JVal.jnum p.1, p.2))

/-- Members of a JSON object, starting at a key (strings only, as in
  JSON); accumulates the key/value pairs in source order. -/
def parseJMembers : Nat → PStr → List (PStr × JVal) → Option (JVal × PStr)
    | 0, _, _ => none
    | fuel + 1, s, acc =>
      match s with
      | c :: rest =>
        if c = cQuote then
          match parseJString (rest.length + 1) rest with
          | some (key, rest2) =>
            match jskip rest2 with
            | ':' :: rest3 =>
              match parseJVal fuel (jskip rest3) with
              | some (v, rest4) =>
                match jskip rest4 with
                | ',' :: rest5 => parseJMembers fuel (jskip rest5) (acc ++ [(key, v)])
                | c2 :: rest5 =>
                  if c2 = cRBrace then some (JVal.jobj (acc ++ [(key, v)]), rest5)
                  else none
                | [] => none
              | none => none
            | _ => none
          | none => none
        else none
      | [] => none

/-- Items of a JSON array, accumulated in source order. -/
def parseJItems : Nat → PStr → List JVal → Option (JVal × PStr)
    | 0, _, _ => none
    | fuel + 1, s, acc =>
      match parseJVal fuel s with
      | some (v, rest) =>
        match jskip rest with
        | ',' :: rest2 => parseJItems fuel (jskip rest2) (acc ++ [v])
        | ']' :: rest2 => some (JVal.jarr (acc ++ [v]), rest2)
        | _ => none
      | none => none
end

/-- Model of `json.loads`: parse one value and require that only whitespace
follows (otherwise Python raises "Extra data", i.e. a `JSONDecodeError`,
which `parse_response` catches). -/
def jsonLoads (s : PStr) : Option JVal :=
  match parseJVal (s.length + 1) s with
  | some (v, rest) => if jskip rest = [] then some v else none
  | none => none

/-- Python `key in dict` for the parsed object, where the dict was built
from the key/value list (membership is unaffected by duplicate keys). -/
def hasKey (kvs : List (PStr × JVal)) (k : PStr) : Bool :=
  kvs.any (fun kv => kv.1 == k)

/-- Python `dict[key]` / `dict.get(key, default)` for an object built from
a key/value list: duplicate keys resolve to the last occurrence, as in
`json.loads`. -/
def lookupLastD (kvs : List (PStr × JVal)) (k : PStr) (d : JVal) : JVal :=
  match kvs.reverse.find? (fun kv => kv.1 == k) with
  | some kv => kv.2
  | none => d

/-- Decimal rendering of a natural number. -/
def natToDec (n : Nat) : PStr := Nat.toDigits 10 n

/-- Escaping used inside `pyRepr` string rendering (common cases of
CPython's `repr`; `\xNN` renderings of other control characters are not
modelled — no claim inspects them). -/
def reprEsc (c : Char) : PStr :=
  if c = cBackslash then [cBackslash, cBackslash]
  else if c = cApos then [cBackslash, cApos]
  else if c = '\n' then [cBackslash, 'n']
  else if c = '\r' then [cBackslash, 'r']
  else if c = '\t' then [cBackslash, 't']
  else [c]

mutual
/-- Model of CPython `repr` on values produced by `json.loads` (strings
  rendered in single quotes; CPython's alternate quote selection when the
  string contains a single quote is not modelled — no claim inspects
  `repr` output). -/
def pyRepr : JVal → PStr
    | JVal.jnull => strL "None"
    | JVal.jbool true => strL "True"
    | JVal.jbool false => strL "False"
    | JVal.jnum raw => raw
    | JVal.jstr s => cApos :: (s.flatMap reprEsc) ++ [cApos]
    | JVal.jarr xs => '[' :: pyReprItems xs ++ [']']
    | JVal.jobj kvs => cLBrace :: pyReprMembers kvs ++ [cRBrace]

/-- Comma-separated renderings of list items. -/
def pyReprItems : List JVal → PStr
    | [] => []
    | [x] => pyRepr x
    | x :: xs => pyRepr x ++ strL ", " ++ pyReprItems xs

/-- Comma-separated renderings of dict members. -/
def pyReprMembers : List (PStr × JVal) → PStr
    | [] => []
    | [(k, v)] => pyRepr (JVal.jstr k) ++ strL ": " ++ pyRepr v
    | (k, v) :: kvs =>
      pyRepr (JVal.jstr k) ++ strL ": " ++ pyRepr v ++ strL ", " ++
        pyReprMembers kvs
end

/-- Model of Python `str()` applied to a value produced by `json.loads`:
identity on strings, `True`/`False`/`None` for the scalars, the source
lexeme for numbers, and `repr` for containers. -/
def pyStr (v : JVal) : PStr :=
  match v with
  | JVal.jstr s => s
  | JVal.jbool true => strL "True"
  | JVal.jbool false => strL "False"
  | JVal.jnull => strL "None"
  | JVal.jnum raw => raw
  | v => pyRepr v

/-! ## The response parser (`LLMParser.parse_response`) -/

/-- The result dictionary built by `LLMParser.parse_response`
(llm_parser.py lines 10-21).  Python `None` is `JVal.jnull`; the
`metadata` sub-dict is flattened to its single `requires_followup` entry. -/
structure ParsedResponse where
  raw_response : PStr
  type : PStr
  content : JVal
  code_blocks : List PStr
  final_answer : JVal
  analysis : JVal
  delegation : JVal
  requires_followup : Bool

/-- The key `"final answer"`. -/
def faKey : PStr := strL "final answer"

/-- The key `"code"`. -/
def codeKey : PStr := strL "code"

/-- The key `"analysis"`. -/
def anaKey : PStr := strL "analysis"

/-- Normalisation of the `"code"` value into a list of strings
(llm_parser.py lines 44-50): a string becomes a one-element list, a list
is mapped through `str`, any other value becomes `[str(value)]`. -/
def normalizeCode : JVal → List PStr
  | JVal.jstr s => [s]
  | JVal.jarr xs => xs.map pyStr
  | v => [pyStr v]

/-- The result returned for empty / whitespace-only input
(llm_parser.py lines 23-25). -/
def emptyResult (response : PStr) : ParsedResponse :=
  { raw_response := response
    type := strL "continuation"
    content := JVal.jstr []
    code_blocks := []
    final_answer := JVal.jnull
    analysis := JVal.jnull
    delegation := JVal.jnull
    requires_followup := true }

/-- Deterministic tail of the fallback-tier regex after the backtracking
point: the literal `"KEY"`, then `\s* : \s*`, then `" ([^"]+) "`, then
`[^\x7d]* \x7d`.  Each starred class here is followed by a character it
excludes, so maximal munch is exact. -/
def tryLit (key : PStr) (s : PStr) : Option PStr :=
  let lit := cQuote :: key ++ [cQuote]
  if lit.isPrefixOf s then
    let s2 := (s.drop lit.length).dropWhile isPySpace
    match s2 with
    | ':' :: s3 =>
      let s4 := s3.dropWhile isPySpace
      match s4 with
      | q :: s5 =>
        if q = cQuote then
          let cap := s5.takeWhile (fun c => c ≠ cQuote)
          if cap = [] then none
          else
            match s5.drop cap.length with
            | q2 :: s7 =>
              if q2 = cQuote then
                match s7.dropWhile (fun c => c ≠ cRBrace) with
                | b :: _ => if b = cRBrace then some cap else none
                | [] => none
              else none
            | [] => none
        else none
      | [] => none
    | _ => none
  else none

/-- Backtracking over the length of the leading `[^\x7d]*` segment of the
fallback-tier regex, longest first (the greedy preference of the Python
engine). -/
def tryLens (key : PStr) (rest : PStr) : Nat → Option PStr
  | 0 => tryLit key rest
  | l + 1 =>
    match tryLit key (rest.drop (l + 1)) with
    | some v => some v
    | none => tryLens key rest l

/-- Try a fallback-tier regex match whose opening brace immediately
precedes `rest`. -/
def tryAt (key : PStr) (rest : PStr) : Option PStr :=
  tryLens key rest ((rest.takeWhile (fun c => c ≠ cRBrace)).length)

/-- Model of `re.search` for the patterns of llm_parser.py lines 62, 70
and 71, which all share the shape
`\x7b [^\x7d]* "KEY" \s* : \s* " ([^"]+) " [^\x7d]* \x7d`:
scan start positions left to right; at an opening brace, try the
bracketed match with the greedy `[^\x7d]*` prefix backtracking from
longest to shortest. -/
def searchKV (key : PStr) : PStr → Option PStr
  | [] => none
  | c :: rest =>
    match (if c = cLBrace then tryAt key rest else none) with
    | some v => some v
    | none => searchKV key rest

/-- Branching of the regex fallback tier (llm_parser.py lines 60-84) on
the two search results (`anaM` is the `"analysis"` search, consulted only
in the code branch): a `"final answer"` match wins, then a `"code"`
match, else continuation with the (stripped) text as content. -/
def fallbackCore (response text : PStr) (fa codeM anaM : Option PStr) : ParsedResponse :=
  match fa with
  | some val =>
    { raw_response := response
      type := strL "final_answer"
      content := JVal.jstr val
      code_blocks := []
      final_answer := JVal.jstr val
      analysis := JVal.jnull
      delegation := JVal.jnull
      requires_followup := false }
  | none =>
    match codeM with
    | some cv =>
      { raw_response := response
        type := strL "code"
        content := JVal.jstr cv
        code_blocks := [cv]
        final_answer := JVal.jnull
        analysis :=
          match anaM with
          | some a => JVal.jstr a
          | none => JVal.jnull
        delegation := JVal.jnull
        requires_followup := false }
    | none =>
      { raw_response := response
        type := strL "continuation"
        content := JVal.jstr text
        code_blocks := []
        final_answer := JVal.jnull
        analysis := JVal.jnull
        delegation := JVal.jnull
        requires_followup := true }

/-- Regex fallback tier and continuation default (llm_parser.py lines
60-84): search for an embedded `"final answer"` fragment, then for a
`"code"` (and optional `"analysis"`) fragment, else continuation. -/
def fallbackTier (response text : PStr) : ParsedResponse :=
  fallbackCore response text (searchKV faKey text) (searchKV codeKey text)
    (searchKV anaKey text)

/-- Branching of the JSON tier of `parse_response` (llm_parser.py lines
29-58) on the `json.loads` outcome: a dict with key `"final answer"`
yields a final answer, else a dict with key `"code"` yields code; any
other JSON value, or a decode error, falls through to the regex tier. -/
def jsonTierCore (response text : PStr) : Option JVal → ParsedResponse
  | some (JVal.jobj kvs) =>
    if hasKey kvs faKey then
      let v := lookupLastD kvs faKey JVal.jnull
      { raw_response := response
        type := strL "final_answer"
        content := v
        code_blocks := []
        final_answer := v
        analysis := JVal.jnull
        delegation := JVal.jnull
        requires_followup := false }
    else if hasKey kvs codeKey then
      let blocks := normalizeCode (lookupLastD kvs codeKey JVal.jnull)
      { raw_response := response
        type := strL "code"
        content := JVal.jstr (List.intercalate (strL "\n\n") blocks)
        code_blocks := blocks
        final_answer := JVal.jnull
        analysis := lookupLastD kvs anaKey JVal.jnull
        delegation := JVal.jnull
        requires_followup := false }
    else fallbackTier response text
  | _ => fallbackTier response text

/-- The JSON tier of `parse_response`: strip fences, attempt `json.loads`
and branch on the result. -/
def jsonTier (response text : PStr) : ParsedResponse :=
  jsonTierCore response text (jsonLoads (strip_backticks_if_needed text))

/-- Embedding of `LLMParser.parse_response` (llm_parser.py lines 9-84). -/
def parse_response (response : PStr) : ParsedResponse :=
  if response = [] ∨ pstrip response = [] then emptyResult response
  else jsonTier response (pstrip response)

/-! ## The provider client (`utils/llm_clients.py`)

`_Breaker` is embedded directly.  `call_gemini` (lines 131-164) is
embedded as an effect-traced function: the cache lookup result and the
outcome of each network attempt are oracles, and every observable side
effect of the body (network attempt, cache write, backoff sleep, breaker
mutation) is recorded in an effect trace.  `call_openai` and `call_nvidia`
(lines 167-243) have the same cache/retry structure and are covered by the
same model. -/

/-- State of `_Breaker` (llm_clients.py lines 39-57).  Timestamps are modelled
as natural numbers of seconds. -/
structure Breaker where
  failures : Nat
  threshold : Nat
  cooldown_sec : Nat
  block_until : Nat

/-- Defaults of `_Breaker.__init__`: threshold 3, cooldown 120 s. -/
def Breaker.init : Breaker :=
  { failures := 0, threshold := 3, cooldown_sec := 120, block_until := 0 }

/-- Embedding of `_Breaker.record_success` (lines 47-49). -/
def Breaker.record_success (b : Breaker) : Breaker :=
  { b with failures := 0, block_until := 0 }

/-- Embedding of `_Breaker.record_failure` (lines 51-54), at current time `now`. -/
def Breaker.record_failure (now : Nat) (b : Breaker) : Breaker :=
  let f := b.failures + 1
  { b with
    failures := f
    block_until := if b.threshold ≤ f then now + b.cooldown_sec else b.block_until }

/-- Embedding of `_Breaker.is_open` (lines 56-57), at current time `now`. -/
def Breaker.is_open (now : Nat) (b : Breaker) : Bool :=
  now < b.block_until

/-- Outcome of one `generate_content` attempt inside `call_gemini`:
either the extracted text (the empty string standing for a falsy
extraction, i.e. `text` is `None` or `""`), or a raised exception. -/
inductive GemOutcome where
  | ok (text : PStr) : GemOutcome
  | exn : GemOutcome

/-- Observable side effects of the provider-client functions. -/
inductive ClientEff where
  | netCall (attempt : Nat) : ClientEff
  | cacheSet (text : PStr) (ttl : Nat) : ClientEff
  | sleepBackoff (attempt : Nat) : ClientEff
  | breakerSuccess : ClientEff
  | breakerFailure : ClientEff
deriving DecidableEq

/-- The retry loop of `call_gemini` (llm_clients.py lines 139-164):
`attempt` starts at 0 and the loop runs while `attempt <= max_retries`,
incrementing first, so attempts are numbered `1 .. max_retries + 1`
(`remaining` counts the iterations left).  A non-empty extracted text is
cached with `expire=900` and returned; a falsy extraction falls through
without sleeping; an exception sleeps (with backoff) only when
`attempt <= max_retries`.  The body never touches the circuit breaker. -/
def gemLoop (net : Nat → GemOutcome) (maxRetries : Nat) :
    Nat → Nat → Option PStr × List ClientEff
  | _, 0 => (none, [])
  | attempt, remaining + 1 =>
    match net attempt with
    | GemOutcome.ok t =>
      if t ≠ [] then (some t, [ClientEff.netCall attempt, ClientEff.cacheSet t 900])
      else
        let res := gemLoop net maxRetries (attempt + 1) remaining
        (res.1, ClientEff.netCall attempt :: res.2)
    | GemOutcome.exn =>
      let res := gemLoop net maxRetries (attempt + 1) remaining
      if attempt ≤ maxRetries then
        (res.1, ClientEff.netCall attempt :: ClientEff.sleepBackoff attempt :: res.2)
      else
        (res.1, ClientEff.netCall attempt :: res.2)

/-- Embedding of `LLMClient.call_gemini` (llm_clients.py lines 131-164).  `hasClient`
is whether `self.gemini_client` initialised; `cached` is the result of the
cache lookup for this prompt/model (a falsy `""` hit proceeds to the
network, as in `if cached: return cached`). -/
def call_gemini (hasClient : Bool) (cached : Option PStr) (net : Nat → GemOutcome)
    (maxRetries : Nat) : Option PStr × List ClientEff :=
  if hasClient = false then (none, [])
  else
    match cached with
    | some c =>
      if c = [] then gemLoop net maxRetries 1 (maxRetries + 1)
      else (some c, [])
    | none => gemLoop net maxRetries 1 (maxRetries + 1)

/-! ## The feedback orchestrator (`llm_orchestrator.py`)

`_run_api_loop` (lines 96-181) and `feedback_loop` (lines 72-94) are
embedded with the wall clock, the per-iteration provider replies and the
per-iteration executor results supplied as oracles.  A provider reply of
`none` models `_call_with_timeout` returning `None` (timeout or a `None`
from the client).  The functions return the Python result dict — modelled
as an ordered key/value list, because which keys are present varies by
outcome — together with the trace of provider invocations performed. -/

/-- Values stored in the orchestrator's result dicts. -/
inductive RVal where
  | ofBool (b : Bool) : RVal
  | ofStr (s : PStr) : RVal
  | ofNat (n : Nat) : RVal
  | ofJVal (v : JVal) : RVal
  | ofParsed (p : ParsedResponse) : RVal
  | ofNull : RVal

/-- A Python dict as an ordered association list (keys in insertion
order, as the dict literals in the source construct them). -/
abbrev RDict := List (PStr × RVal)

/-- One provider invocation performed by the attempt loop: which API, at
which iteration number, and the `time.time()` value sampled by the
deadline check just before the call. -/
structure ProviderCall where
  api : PStr
  iteration : Nat
  time : Nat
deriving DecidableEq

/-- The executor's result dict as the orchestrator sees it (`run_code`
returns exactly the keys `success`, `stdout`, `stderr`). -/
structure ExecResultO where
  success : Bool
  stdout : PStr
  stderr : PStr

/-- Oracles for one attempt: `t0` is the `time.time()` sampled when the
attempt's deadline is computed, `clock i` the time sampled by the check
before iteration `i`, `reply i` the `_call_with_timeout` result of
iteration `i`, and `execR i` the executor result of iteration `i`. -/
structure ApiEnv where
  t0 : Nat
  clock : Nat → Nat
  reply : Nat → Option PStr
  execR : Nat → ExecResultO

/-- Python `str()` of the executor result dict, as interpolated into the
history entry f-string. -/
def execResultStr (e : ExecResultO) : PStr :=
  pyRepr (JVal.jobj
    [(strL "success", JVal.jbool e.success),
     (strL "stdout", JVal.jstr e.stdout),
     (strL "stderr", JVal.jstr e.stderr)])

/-- One history entry (llm_orchestrator.py lines 154-158). -/
def historyEntry (iteration : Nat) (llm_output : PStr) (e : ExecResultO) : PStr :=
  strL "Iteration " ++ natToDec iteration ++ strL "\nModel output:\n" ++ llm_output ++
    strL "\n\nExecution Results:\n" ++ execResultStr e ++ strL "\n"

/-- Embedding of `LLMOrchestrator._build_feedback_prompt` (lines 183-202). -/
def build_feedback_prompt (original_prompt : PStr) (history : List PStr) : PStr :=
  strL "\nOriginal Question:\n" ++ original_prompt ++
    strL "\n\nHere is the full history of attempts so far:\n" ++
    List.intercalate (strL "\n\n---\n\n") history ++
    strL "\n\nNow, based on this history, please either:\n1. Provide the **final answer** in JSON format: \x7b \"final answer\": ... \x7d\n2. OR, if more work is needed, provide only the next incremental code block in the format: \x7b\"code\": <code to be executed>, \n\"analysis\": <brief description of further analysis made by you>\x7d\n\nBut try to construct efficient code at once. \nAnd if the received input is satisfactory, try to analyze and give the final answer at the earliest according to the format mentioned previously.\n"

/-- The continuation prompt (llm_orchestrator.py line 175). -/
def continuationPrompt (initial_prompt llm_output : PStr) : PStr :=
  initial_prompt ++ strL "\n\nPrevious response:\n" ++ llm_output ++
    strL "\n\nPlease provide the final answer or executable code."

/-- The API names `_run_api_loop` dispatches on (lines 114-119). -/
def knownApi (api : PStr) : Bool :=
  api == strL "openai" || api == strL "nvidia" || api == strL "gemini"

/-- Success result dict (lines 139-146). -/
def successResult (api : PStr) (iter : Nat) (parsed : ParsedResponse) (raw : PStr) : RDict :=
  [(strL "success", RVal.ofBool true),
   (strL "final_answer", RVal.ofJVal parsed.content),
   (strL "api_used", RVal.ofStr api),
   (strL "iterations", RVal.ofNat iter),
   (strL "parsed", RVal.ofParsed parsed),
   (strL "raw_output", RVal.ofStr raw)]

/-- Deadline-exceeded result dict (line 107). -/
def deadlineResult (api : PStr) : RDict :=
  [(strL "success", RVal.ofBool false),
   (strL "error", RVal.ofStr (strL "Global deadline exceeded for " ++ api)),
   (strL "final_answer", RVal.ofNull)]

/-- Unknown-API result dict (line 121). -/
def unknownApiResult (api : PStr) : RDict :=
  [(strL "success", RVal.ofBool false),
   (strL "error", RVal.ofStr (strL "Unknown API: " ++ api))]

/-- Provider-returned-`None` result dict (line 126). -/
def apiNoneResult (api : PStr) : RDict :=
  [(strL "success", RVal.ofBool false),
   (strL "error", RVal.ofStr (api ++ strL " API returned None"))]

/-- Max-iterations result dict (lines 177-181). -/
def maxIterResult (api : PStr) (maxIterations : Nat) : RDict :=
  [(strL "success", RVal.ofBool false),
   (strL "error", RVal.ofStr (strL "Maximum iterations (" ++ natToDec maxIterations ++
     strL ") reached for " ++ api)),
   (strL "final_answer", RVal.ofNull)]

/-- All-providers-failed result dict (`feedback_loop`, lines 90-94). -/
def allFailedResult : RDict :=
  [(strL "success", RVal.ofBool false),
   (strL "error",
     RVal.ofStr (strL "All APIs (Gemini, Nvidia, OpenAI) failed to provide a response")),
   (strL "final_answer", RVal.ofNull)]

/-- The `while iteration < self.max_iterations` loop of `_run_api_loop`
(lines 105-175): `iteration` completed iterations so far, `remaining` the
iterations the cap still allows.  Returns the result dict and the trace
of provider invocations. -/
def runApiLoopGo (env : ApiEnv) (api initialPrompt : PStr) (maxIterations deadline : Nat) :
    Nat → Nat → PStr → List PStr → RDict × List ProviderCall
  | _, 0, _, _ => (maxIterResult api maxIterations, [])
  | iteration, remaining + 1, currentPrompt, history =>
    let t := env.clock (iteration + 1)
    if deadline ≤ t then (deadlineResult api, [])
    else
      let iter := iteration + 1
      if knownApi api then
        match env.reply iter with
        | some o =>
          if o = [] then (apiNoneResult api, [⟨api, iter, t⟩])
          else
            let parsed := parse_response o
            if parsed.type = strL "final_answer" then
              (successResult api iter parsed o, [⟨api, iter, t⟩])
            else if parsed.type = strL "code" ∧ parsed.code_blocks ≠ [] then
              let er := env.execR iter
              let history2 := history ++ [historyEntry iter o er]
              let res := runApiLoopGo env api initialPrompt maxIterations deadline
                iter remaining (build_feedback_prompt initialPrompt history2) history2
              (res.1, ⟨api, iter, t⟩ :: res.2)
            else
              let res := runApiLoopGo env api initialPrompt maxIterations deadline
                iter remaining (continuationPrompt initialPrompt o) history
              (res.1, ⟨api, iter, t⟩ :: res.2)
        | none => (apiNoneResult api, [⟨api, iter, t⟩])
      else (unknownApiResult api, [])

/-- Embedding of `LLMOrchestrator._run_api_loop` (lines 96-181): deadline is
`time.time() + self.global_budget_sec` sampled at attempt start. -/
def run_api_loop (env : ApiEnv) (api initialPrompt : PStr) (maxIterations budget : Nat) :
    RDict × List ProviderCall :=
  runApiLoopGo env api initialPrompt maxIterations (env.t0 + budget)
    0 maxIterations initialPrompt []

/-- The field `self.max_iterations` (llm_orchestrator.py line 57). -/
def max_iterations : Nat := 9

/-- The field `self.global_budget_sec` (llm_orchestrator.py line 58). -/
def global_budget_sec : Nat := 300

/-- The key list of a result dict, in insertion order. -/
def rKeys (d : RDict) : List PStr := d.map Prod.fst

/-- Truthiness of `result["success"]` as tested by `feedback_loop`. -/
def getSuccess (d : RDict) : Bool :=
  match d.find? (fun kv => kv.1 == strL "success") with
  | some (_, RVal.ofBool b) => b
  | _ => false

/-- The provider loop of `feedback_loop` (lines 76-88) over the remaining
API list. -/
def feedbackGo (envOf : PStr → ApiEnv) (first_prompt : PStr) :
    List PStr → RDict × List ProviderCall
  | [] => (allFailedResult, [])
  | api :: rest =>
    let r := run_api_loop (envOf api) api first_prompt max_iterations global_budget_sec
    if getSuccess r.1 then r
    else
      let res := feedbackGo envOf first_prompt rest
      (res.1, r.2 ++ res.2)

/-- Embedding of `LLMOrchestrator.feedback_loop` (lines 72-94): tries the APIs in the
fixed order `['nvidia', 'gemini', 'openai']` and returns the first
successful attempt's result. -/
def feedback_loop (envOf : PStr → ApiEnv) (first_prompt : PStr) :
    RDict × List ProviderCall :=
  feedbackGo envOf first_prompt [strL "nvidia", strL "gemini", strL "openai"]

/-! ## The sandbox executor (`utils/code_executor.py`)

`run_code` (lines 51-141) mutates the module-level session state
(`_active_container`, `_work_dir`).  The outcome of the try block —
completion, `subprocess.TimeoutExpired`, or any other exception — is an
oracle.  Provisioning (lines 59-81) is modelled atomically: the partially
provisioned states an exception could leave behind mid-provisioning are
not needed by any claim. -/

/-- The module-level session state (code_executor.py lines 16-17). -/
structure ExecState where
  active_container : Option PStr
  work_dir : Option PStr

/-- Observable side effects of the executor. -/
inductive ExecEff where
  | mkWorkdir (wd : PStr) : ExecEff
  | copyFiles : ExecEff
  | dockerRunStart (cid : PStr) : ExecEff
  | writeScript (code : PStr) : ExecEff
  | pipInstall (pkgs : List PStr) : ExecEff
  | dockerExec : ExecEff
  | dockerStop (cid : PStr) : ExecEff
  | dockerRm (cid : PStr) : ExecEff
  | rmWorkdir (wd : PStr) : ExecEff
deriving DecidableEq

/-- Embedding of `_cleanup_container` (code_executor.py lines 37-48): stop and remove
the active container if any, delete the work directory if any, clear both
globals. -/
def cleanup_container (st : ExecState) : ExecState × List ExecEff :=
  let (st1, effs1) :=
    match st.active_container with
    | some cid =>
      ({ st with active_container := none }, [ExecEff.dockerStop cid, ExecEff.dockerRm cid])
    | none => (st, [])
  match st1.work_dir with
  | some wd => ({ st1 with work_dir := none }, effs1 ++ [ExecEff.rmWorkdir wd])
  | none => (st1, effs1)

/-- Python `str.splitlines` restricted to the line breaks `\n`, `\r`,
`\r\n` (the only ones the repository's scripts contain). -/
def splitlinesGo : PStr → PStr → List PStr
  | [], acc => if acc = [] then [] else [acc.reverse]
  | '\r' :: '\n' :: rest, acc => acc.reverse :: splitlinesGo rest []
  | '\r' :: rest, acc => acc.reverse :: splitlinesGo rest []
  | '\n' :: rest, acc => acc.reverse :: splitlinesGo rest []
  | c :: rest, acc => splitlinesGo rest (c :: acc)

/-- Python `code.splitlines()`. -/
def splitlines (s : PStr) : List PStr := splitlinesGo s []

/-- Identifier-or-dot character class of the import pattern. -/
def isIdentDot (c : Char) : Bool :=
  ('a' ≤ c && c ≤ 'z') || ('A' ≤ c && c ≤ 'Z') || ('0' ≤ c && c ≤ '9') || c = '_' || c = '.'

/-- Model of `re.match` of the pattern matching an import statement at the start
of a line (code_executor.py line 26) followed by the root-package
extraction `match.group(1).split('.')[0]` (line 30). -/
def importRootOf (line : PStr) : Option PStr :=
  let l1 := line.dropWhile isPySpace
  let afterKw :=
    if (strL "import").isPrefixOf l1 then some (l1.drop 6)
    else if (strL "from").isPrefixOf l1 then some (l1.drop 4)
    else none
  match afterKw with
  | some l2 =>
    match l2 with
    | c :: _ =>
      if isPySpace c then
        let name := (l2.dropWhile isPySpace).takeWhile isIdentDot
        if name = [] then none
        else some (name.takeWhile (fun ch => ch ≠ '.'))
      else none
    | [] => none
  | none => none

/-- Embedding of `_extract_imports` (code_executor.py lines 20-34).  `stdlib` stands
for `sys.stdlib_module_names`.  The Python function returns a `set`; it is
modelled as the deduplicated list in first-occurrence order (the set's
iteration order is not otherwise observed by any claim). -/
def extract_imports (stdlib : List PStr) (code : PStr) : List PStr :=
  (splitlines code).foldl
    (fun acc line =>
      match importRootOf line with
      | some pkg =>
        if stdlib.contains pkg then acc
        else if acc.contains pkg then acc
        else acc ++ [pkg]
      | none => acc)
    []

/-- The result dict of `run_code` (always exactly the keys `success`,
`stdout` and `stderr`). -/
structure RunResult where
  success : Bool
  stdout : PStr
  stderr : PStr

/-- Outcome of the `try` block of `run_code`: normal completion of the
`docker exec` with a return code and captured streams, a
`subprocess.TimeoutExpired` (from the install or exec step), or any other
exception with its `str(e)` message. -/
inductive RunOutcome where
  | completes (returncode : Int) (stdout : PStr) (stderr : PStr) : RunOutcome
  | raisesTimeout : RunOutcome
  | raisesOther (msg : PStr) : RunOutcome

/-- Embedding of `run_code` (code_executor.py lines 51-141) over the session state:
provisions a workspace and container when none is active, writes and runs
the script, and cleans up only when `keep_container_open` is false — in
the normal path (lines 120-123) and in both exception handlers (lines
131-141) alike. -/
def run_code (st : ExecState) (code : PStr) (stdlib : List PStr)
    (keep_container_open : Bool) (newWd newCid : PStr) (outcome : RunOutcome) :
    RunResult × ExecState × List ExecEff :=
  let (st1, provEffs) :=
    if st.active_container = none then
      (ExecState.mk (some newCid) (some newWd),
       [ExecEff.mkWorkdir newWd, ExecEff.copyFiles, ExecEff.dockerRunStart newCid])
    else (st, [])
  let pkgs := extract_imports stdlib code
  let runEffs :=
    ExecEff.writeScript code ::
      ((if pkgs ≠ [] then [ExecEff.pipInstall pkgs] else []) ++ [ExecEff.dockerExec])
  match outcome with
  | RunOutcome.completes rc out err =>
    let (st2, cleanEffs) :=
      if keep_container_open then (st1, []) else cleanup_container st1
    ({ success := rc == 0, stdout := pstrip out, stderr := pstrip err },
     st2, provEffs ++ runEffs ++ cleanEffs)
  | RunOutcome.raisesTimeout =>
    let (st2, cleanEffs) :=
      if keep_container_open then (st1, []) else cleanup_container st1
    ({ success := false, stdout := [], stderr := strL "Execution timed out." },
     st2, provEffs ++ cleanEffs)
  | RunOutcome.raisesOther msg =>
    let (st2, cleanEffs) :=
      if keep_container_open then (st1, []) else cleanup_container st1
    ({ success := false, stdout := [], stderr := msg },
     st2, provEffs ++ cleanEffs)

/-- The `"final answer"` value the strict-JSON tier acts on, as a
function of the `json.loads` outcome. -/
def strictFACore : Option JVal → Option JVal
  | some (JVal.jobj kvs) =>
    if hasKey kvs faKey then some (lookupLastD kvs faKey JVal.jnull) else none
  | _ => none

/-- The `"code"` value the strict-JSON tier acts on, as a function of the
`json.loads` outcome (only when no `"final answer"` key is present). -/
def strictCodeCore : Option JVal → Option JVal
  | some (JVal.jobj kvs) =>
    if hasKey kvs faKey then none
    else if hasKey kvs codeKey then some (lookupLastD kvs codeKey JVal.jnull)
    else none
  | _ => none

/-- The `"final answer"` value the strict-JSON tier of `parse_response`
acts on, when that tier applies to input `r` (fences stripped, JSON
parses to a dict containing the key). -/
def strictFA (r : PStr) : Option JVal :=
  strictFACore (jsonLoads (strip_backticks_if_needed (pstrip r)))

/-- The `"code"` value the strict-JSON tier of `parse_response` acts on,
when that tier applies to input `r` (JSON parses to a dict with a
`"code"` key and no `"final answer"` key). -/
def strictCode (r : PStr) : Option JVal :=
  strictCodeCore (jsonLoads (strip_backticks_if_needed (pstrip r)))

/-! ## Theorems -/

/-- A list whose `dropWhile` is itself has the same property on every
prefix (the head, if any, is shared and fails the predicate). -/
theorem dropWhile_eq_self_of_pre {p : Char → Bool} {x t : List Char}
    (hx : x.dropWhile p = x) (ht : t <+: x) : t.dropWhile p = t := by
  rcases t with _ | ⟨a, t'⟩
  · rfl
  · obtain ⟨r, hr⟩ := ht
    subst hr
    have hpa : p a = false := by
      cases hval : p a
      · rfl
      · exfalso
        rw [List.cons_append, List.dropWhile_cons, hval] at hx
        simp only [if_true] at hx
        have hlen : (List.dropWhile p (t' ++ r)).length ≤ (t' ++ r).length :=
          (List.dropWhile_suffix p).sublist.length_le
        rw [hx] at hlen
        simp at hlen
    simp [List.dropWhile_cons, hpa]

/-- Python `str.strip()` is idempotent. -/
theorem pstrip_idem (l : PStr) : pstrip (pstrip l) = pstrip l := by
  unfold pstrip
  have hxx : (l.dropWhile isPySpace).dropWhile isPySpace = l.dropWhile isPySpace :=
    List.dropWhile_idempotent isPySpace l
  have hpre := List.rdropWhile_prefix isPySpace (l.dropWhile isPySpace)
  have h1 := dropWhile_eq_self_of_pre hxx hpre
  rw [h1]
  exact List.rdropWhile_idempotent isPySpace (l.dropWhile isPySpace)

/-- A `fallbackCore` result classified as a continuation fixes the tier's
behaviour on this `text` for every raw response: both regex searches
failed, the content is the (stripped) text, and re-running the tier on
the same text stays a continuation. -/
theorem fallbackCore_cont {resp text : PStr} {fa codeM anaM : Option PStr}
    (h : (fallbackCore resp text fa codeM anaM).type = strL "continuation") :
    (fallbackCore resp text fa codeM anaM).content = JVal.jstr text ∧
      ∀ resp' : PStr,
        (fallbackCore resp' text fa codeM anaM).type = strL "continuation" := by
  cases fa with
  | some v =>
    exact absurd (show strL "final_answer" = strL "continuation" from h) (by decide)
  | none =>
    cases codeM with
    | some cv =>
      exact absurd (show strL "code" = strL "continuation" from h) (by decide)
    | none => exact ⟨rfl, fun resp' => rfl⟩

/-- A `jsonTierCore` result classified as a continuation fixes the tier's
behaviour on this `text` for every raw response. -/
theorem jsonTierCore_cont {resp text : PStr} {o : Option JVal}
    (h : (jsonTierCore resp text o).type = strL "continuation") :
    (jsonTierCore resp text o).content = JVal.jstr text ∧
      ∀ resp' : PStr, (jsonTierCore resp' text o).type = strL "continuation" := by
  cases o with
  | none => exact fallbackCore_cont h
  | some v =>
    cases v with
    | jobj kvs =>
      by_cases h1 : hasKey kvs faKey = true
      · simp only [jsonTierCore, if_pos h1] at h
        exact absurd h (by decide)
      · simp only [jsonTierCore, if_neg h1] at h ⊢
        by_cases h2 : hasKey kvs codeKey = true
        · simp only [if_pos h2] at h
          exact absurd h (by decide)
        · simp only [if_neg h2] at h ⊢
          exact fallbackCore_cont h
    | jnull => exact fallbackCore_cont h
    | jbool b => exact fallbackCore_cont h
    | jnum raw => exact fallbackCore_cont h
    | jstr s => exact fallbackCore_cont h
    | jarr xs => exact fallbackCore_cont h

/-- Unfolding equation for `jsonTier`. -/
theorem jsonTier_eq (resp text : PStr) :
    jsonTier resp text =
      jsonTierCore resp text (jsonLoads (strip_backticks_if_needed text)) := rfl

/-- Unfolding equation for `fallbackTier`. -/
theorem fallbackTier_eq (resp text : PStr) :
    fallbackTier resp text =
      fallbackCore resp text (searchKV faKey text) (searchKV codeKey text)
        (searchKV anaKey text) := rfl

/-- The function `fallbackCore` preserves the raw response and classifies into the
three kinds. -/
theorem fallbackCore_shape (resp text : PStr) (fa codeM anaM : Option PStr) :
    (fallbackCore resp text fa codeM anaM).raw_response = resp ∧
      ((fallbackCore resp text fa codeM anaM).type = strL "continuation" ∨
       (fallbackCore resp text fa codeM anaM).type = strL "final_answer" ∨
       (fallbackCore resp text fa codeM anaM).type = strL "code") := by
  cases fa with
  | some v => exact ⟨rfl, Or.inr (Or.inl rfl)⟩
  | none =>
    cases codeM with
    | some cv => exact ⟨rfl, Or.inr (Or.inr rfl)⟩
    | none => exact ⟨rfl, Or.inl rfl⟩

/-- The function `jsonTierCore` preserves the raw response and classifies into the
three kinds. -/
theorem jsonTierCore_shape (resp text : PStr) (o : Option JVal) :
    (jsonTierCore resp text o).raw_response = resp ∧
      ((jsonTierCore resp text o).type = strL "continuation" ∨
       (jsonTierCore resp text o).type = strL "final_answer" ∨
       (jsonTierCore resp text o).type = strL "code") := by
  cases o with
  | none => exact fallbackCore_shape resp text _ _ _
  | some v =>
    cases v with
    | jobj kvs =>
      by_cases h1 : hasKey kvs faKey = true
      · simp [jsonTierCore, if_pos h1]
      · simp only [jsonTierCore, if_neg h1]
        by_cases h2 : hasKey kvs codeKey = true
        · simp [if_pos h2]
        · simp only [if_neg h2]
          exact fallbackCore_shape resp text _ _ _
    | jnull => exact fallbackCore_shape resp text _ _ _
    | jbool b => exact fallbackCore_shape resp text _ _ _
    | jnum raw => exact fallbackCore_shape resp text _ _ _
    | jstr s => exact fallbackCore_shape resp text _ _ _
    | jarr xs => exact fallbackCore_shape resp text _ _ _

/-- C3: the four reference cases of the parser.
`parse('\x7b"final answer": "4"\x7d')` yields kind `final_answer` with
content `"4"`; `parse('\x7b"code": "print(1)"\x7d')` yields kind `code`
with code blocks `["print(1)"]`;
`parse('\x7b"code": ["a","b"], "analysis":"x"\x7d')` yields code blocks
`["a", "b"]` in that order and analysis `"x"`; `parse("")` yields a
continuation with `requires_followup = true`. -/
theorem C3_parser_reference_cases :
    ((parse_response (strL "\x7b\"final answer\": \"4\"\x7d")).type = strL "final_answer" ∧
     (parse_response (strL "\x7b\"final answer\": \"4\"\x7d")).content = JVal.jstr (strL "4")) ∧
    ((parse_response (strL "\x7b\"code\": \"print(1)\"\x7d")).type = strL "code" ∧
     (parse_response (strL "\x7b\"code\": \"print(1)\"\x7d")).code_blocks = [strL "print(1)"]) ∧
    ((parse_response (strL "\x7b\"code\": [\"a\",\"b\"], \"analysis\":\"x\"\x7d")).code_blocks
        = [strL "a", strL "b"] ∧
     (parse_response (strL "\x7b\"code\": [\"a\",\"b\"], \"analysis\":\"x\"\x7d")).analysis
        = JVal.jstr (strL "x")) ∧
    ((parse_response (strL "")).type = strL "continuation" ∧
     (parse_response (strL "")).requires_followup = true) :=
  ⟨⟨rfl, rfl⟩, ⟨rfl, rfl⟩, ⟨rfl, rfl⟩, ⟨rfl, rfl⟩⟩

/-- C10: `parse_response` is total by construction, returns the input
verbatim in `raw_response`, and classifies every input (including empty,
non-JSON and malformed text) as one of `final_answer`, `code`,
`continuation`. -/
theorem C10_parser_total_preserves_raw (r : PStr) :
    (parse_response r).raw_response = r ∧
      ((parse_response r).type = strL "continuation" ∨
       (parse_response r).type = strL "final_answer" ∨
       (parse_response r).type = strL "code") := by
  unfold parse_response
  by_cases h : r = [] ∨ pstrip r = []
  · rw [if_pos h]
    exact ⟨rfl, Or.inl rfl⟩
  · rw [if_neg h, jsonTier_eq]
    exact jsonTierCore_shape r (pstrip r) _

/-- C9: re-parsing the content of a continuation result yields a
continuation again — the kind never changes without new input. -/
theorem C9_continuation_reparse_stable (r s : PStr)
    (h : (parse_response r).type = strL "continuation")
    (hc : (parse_response r).content = JVal.jstr s) :
    (parse_response s).type = strL "continuation" := by
  unfold parse_response at h hc ⊢
  by_cases h0 : r = [] ∨ pstrip r = []
  · rw [if_pos h0] at h hc
    have hs : s = [] := by
      have h2 : JVal.jstr ([] : PStr) = JVal.jstr s := hc
      injection h2 with h3
      exact h3.symm
    subst hs
    rw [if_pos (Or.inl rfl)]
    rfl
  · rw [if_neg h0, jsonTier_eq] at h hc
    obtain ⟨hcnt, hall⟩ := jsonTierCore_cont h
    have hs : s = pstrip r := by
      have h2 : JVal.jstr (pstrip r) = JVal.jstr s := hcnt.symm.trans hc
      injection h2 with h3
      exact h3.symm
    subst hs
    have hne : ¬(pstrip r = [] ∨ pstrip (pstrip r) = []) := by
      rw [pstrip_idem]
      intro hcon
      rcases hcon with hcon | hcon <;> exact h0 (Or.inr hcon)
    rw [if_neg hne, jsonTier_eq, pstrip_idem]
    exact hall (pstrip r)

/-- C9 witness: the non-JSON input `"hello"` parses as a continuation
whose content re-parses as a continuation. -/
theorem C9_witness : (parse_response (strL "hello")).type = strL "continuation" :=
  C9_continuation_reparse_stable (strL "hello") (strL "hello") rfl rfl

/-- C4 counterexample: the strict-JSON tier breaks both halves of the
claimed invariant — a `"code"` key holding the empty list yields kind
`code` with an empty code-blocks list, and a `"final answer"` key holding
JSON `null` yields kind `final_answer` with null content. -/
theorem C4_counterexample :
    ((parse_response (strL "\x7b\"code\": []\x7d")).type = strL "code" ∧
     (parse_response (strL "\x7b\"code\": []\x7d")).code_blocks = []) ∧
    ((parse_response (strL "\x7b\"final answer\": null\x7d")).type = strL "final_answer" ∧
     (parse_response (strL "\x7b\"final answer\": null\x7d")).content = JVal.jnull) :=
  ⟨⟨rfl, rfl⟩, ⟨rfl, rfl⟩⟩

/-- The amended C4 invariant for the regex fallback tier, where it holds
unconditionally: a code classification carries the non-empty singleton
capture and a final-answer classification carries the non-null captured
string. -/
theorem fallbackCore_amended (resp text : PStr) (fa codeM anaM : Option PStr) :
    ((fallbackCore resp text fa codeM anaM).type = strL "code" →
      ((fallbackCore resp text fa codeM anaM).code_blocks = [] ↔
        (none : Option JVal) = some (JVal.jarr []))) ∧
    ((fallbackCore resp text fa codeM anaM).type = strL "final_answer" →
      ((fallbackCore resp text fa codeM anaM).content = JVal.jnull ↔
        (none : Option JVal) = some JVal.jnull)) := by
  cases fa with
  | some v =>
    refine ⟨fun hcon =>
      absurd (show strL "final_answer" = strL "code" from hcon) (by decide),
      fun _ => ?_⟩
    simp [fallbackCore]
  | none =>
    cases codeM with
    | some cv =>
      refine ⟨fun _ => ?_, fun hcon =>
        absurd (show strL "code" = strL "final_answer" from hcon) (by decide)⟩
      simp [fallbackCore]
    | none =>
      exact ⟨fun hcon =>
        absurd (show strL "continuation" = strL "code" from hcon) (by decide),
        fun hcon =>
          absurd (show strL "continuation" = strL "final_answer" from hcon) (by decide)⟩

/-- C4 amended: for every input, a `code` classification has an empty
code-blocks list exactly when the strict-JSON `"code"` value is the empty
list, and a `final_answer` classification has null content exactly when
the strict-JSON `"final answer"` value is JSON `null`; in all other cases
(including the whole regex fallback tier) the claimed invariant holds. -/
theorem C4_amended_invariant (r : PStr) :
    ((parse_response r).type = strL "code" →
      ((parse_response r).code_blocks = [] ↔ strictCode r = some (JVal.jarr []))) ∧
    ((parse_response r).type = strL "final_answer" →
      ((parse_response r).content = JVal.jnull ↔ strictFA r = some JVal.jnull)) := by
  unfold parse_response strictCode strictFA
  by_cases h0 : r = [] ∨ pstrip r = []
  · rw [if_pos h0]
    exact ⟨fun hcon =>
      absurd (show strL "continuation" = strL "code" from hcon) (by decide),
      fun hcon =>
        absurd (show strL "continuation" = strL "final_answer" from hcon) (by decide)⟩
  · rw [if_neg h0, jsonTier_eq]
    generalize jsonLoads (strip_backticks_if_needed (pstrip r)) = o
    cases o with
    | none => exact fallbackCore_amended r (pstrip r) _ _ _
    | some v =>
      cases v with
      | jobj kvs =>
        by_cases h1 : hasKey kvs faKey = true
        · simp only [jsonTierCore, strictFACore, strictCodeCore, if_pos h1]
          refine ⟨fun hcon =>
            absurd (show strL "final_answer" = strL "code" from hcon) (by decide),
            fun _ => ?_⟩
          generalize lookupLastD kvs faKey JVal.jnull = v
          simp
        · simp only [jsonTierCore, strictFACore, strictCodeCore, if_neg h1]
          by_cases h2 : hasKey kvs codeKey = true
          · simp only [if_pos h2]
            refine ⟨fun _ => ?_, fun hcon =>
              absurd (show strL "code" = strL "final_answer" from hcon) (by decide)⟩
            generalize lookupLastD kvs codeKey JVal.jnull = cv
            cases cv with
            | jarr xs => simp [normalizeCode]
            | jnull => simp [normalizeCode]
            | jbool b => simp [normalizeCode]
            | jnum raw => simp [normalizeCode]
            | jstr s => simp [normalizeCode]
            | jobj kvs2 => simp [normalizeCode]
          · simp only [if_neg h2]
            exact fallbackCore_amended r (pstrip r) _ _ _
      | jnull => exact fallbackCore_amended r (pstrip r) _ _ _
      | jbool b => exact fallbackCore_amended r (pstrip r) _ _ _
      | jnum raw => exact fallbackCore_amended r (pstrip r) _ _ _
      | jstr s => exact fallbackCore_amended r (pstrip r) _ _ _
      | jarr xs => exact fallbackCore_amended r (pstrip r) _ _ _

/-- C4 witness: instantiating the amended invariant at the counterexample
input shows the strict-JSON `"code"` value there is indeed the empty
list. -/
theorem C4_amended_witness :
    strictCode (strL "\x7b\"code\": []\x7d") = some (JVal.jarr []) :=
  ((C4_amended_invariant (strL "\x7b\"code\": []\x7d")).1 (by decide)).mp rfl

/-- When the first network attempt extracts a non-empty text, the retry
loop returns it at once, caching it with TTL 900 — independently of any
breaker state, which the loop never reads. -/
theorem gemLoop_first_ok (net : Nat → GemOutcome) (maxRetries : Nat) (t : PStr)
    (hnet : net 1 = GemOutcome.ok t) (ht : t ≠ []) :
    gemLoop net maxRetries 1 (maxRetries + 1) =
      (some t, [ClientEff.netCall 1, ClientEff.cacheSet t 900]) := by
  simp only [gemLoop, hnet]
  rw [if_pos ht]

/-- Whenever the retry loop returns a text, the trace holds the cache
write with TTL 900 for that text and no breaker-reset effect. -/
theorem gemLoop_success_cache (net : Nat → GemOutcome) (maxRetries : Nat) :
    ∀ remaining attempt t, (gemLoop net maxRetries attempt remaining).1 = some t →
      ClientEff.cacheSet t 900 ∈ (gemLoop net maxRetries attempt remaining).2 ∧
      ClientEff.breakerSuccess ∉ (gemLoop net maxRetries attempt remaining).2 := by
  intro remaining
  induction remaining with
  | zero =>
    intro attempt t h
    exact absurd h (by simp [gemLoop])
  | succ r ih =>
    intro attempt t h
    cases hnet : net attempt with
    | ok s =>
      by_cases hs : s ≠ []
      · simp only [gemLoop, hnet, if_pos hs] at h ⊢
        have hst : s = t := by
          injection h
        subst hst
        simp
      · simp only [gemLoop, hnet, if_neg hs] at h ⊢
        obtain ⟨hmem, hnot⟩ := ih (attempt + 1) t h
        refine ⟨List.mem_cons_of_mem _ hmem, ?_⟩
        intro hcon
        rcases List.mem_cons.mp hcon with hcon | hcon
        · exact ClientEff.noConfusion hcon
        · exact hnot hcon
    | exn =>
      by_cases hle : attempt ≤ maxRetries
      · simp only [gemLoop, hnet, if_pos hle] at h ⊢
        obtain ⟨hmem, hnot⟩ := ih (attempt + 1) t h
        refine ⟨List.mem_cons_of_mem _ (List.mem_cons_of_mem _ hmem), ?_⟩
        intro hcon
        rcases List.mem_cons.mp hcon with hcon | hcon
        · exact ClientEff.noConfusion hcon
        rcases List.mem_cons.mp hcon with hcon | hcon
        · exact ClientEff.noConfusion hcon
        · exact hnot hcon
      · simp only [gemLoop, hnet, if_neg hle] at h ⊢
        obtain ⟨hmem, hnot⟩ := ih (attempt + 1) t h
        refine ⟨List.mem_cons_of_mem _ hmem, ?_⟩
        intro hcon
        rcases List.mem_cons.mp hcon with hcon | hcon
        · exact ClientEff.noConfusion hcon
        · exact hnot hcon

/-- C1 counterexample: with the provider's breaker open (failure count at
threshold, current time 50 before `block_until` 100), `call_gemini` still
performs the network attempt and returns its text — it does not skip and
does not report failure. -/
theorem C1_counterexample :
    Breaker.is_open 50
        { failures := 3, threshold := 3, cooldown_sec := 120, block_until := 100 } = true ∧
    call_gemini true none (fun _ => GemOutcome.ok (strL "hi")) 2 =
      (some (strL "hi"), [ClientEff.netCall 1, ClientEff.cacheSet (strL "hi") 900]) :=
  ⟨rfl, rfl⟩

/-- C1 amended: the provider invocation functions never consult the
breaker — whatever the breaker state, even open, a cache-miss call with a
ready client attempts the network and returns the first non-empty text
(the `is_open` skip exists only in the unused legacy `chat` path). -/
theorem C1_amended_no_breaker_skip (b : Breaker) (now : Nat)
    (hopen : Breaker.is_open now b = true)
    (net : Nat → GemOutcome) (maxRetries : Nat) (t : PStr)
    (hnet : net 1 = GemOutcome.ok t) (ht : t ≠ []) :
    call_gemini true none net maxRetries =
      (some t, [ClientEff.netCall 1, ClientEff.cacheSet t 900]) := by
  show gemLoop net maxRetries 1 (maxRetries + 1) = _
  exact gemLoop_first_ok net maxRetries t hnet ht

/-- C1 witness: a concrete open breaker and a succeeding network oracle. -/
theorem C1_amended_witness :
    call_gemini true none (fun _ => GemOutcome.ok (strL "probe")) 2 =
      (some (strL "probe"), [ClientEff.netCall 1, ClientEff.cacheSet (strL "probe") 900]) :=
  C1_amended_no_breaker_skip
    { failures := 3, threshold := 3, cooldown_sec := 120, block_until := 100 } 50 rfl
    (fun _ => GemOutcome.ok (strL "probe")) 2 (strL "probe") rfl (by decide)

/-- C7 counterexample: a successful invocation caches and returns the
text but performs no breaker reset — the trace holds no
`breakerSuccess`, contradicting the claimed failure-counter reset. -/
theorem C7_counterexample :
    call_gemini true none (fun _ => GemOutcome.ok (strL "hi2")) 2 =
      (some (strL "hi2"), [ClientEff.netCall 1, ClientEff.cacheSet (strL "hi2") 900]) ∧
    ClientEff.breakerSuccess ∉
      [ClientEff.netCall 1, ClientEff.cacheSet (strL "hi2") 900] :=
  ⟨rfl, by decide⟩

/-- C7 amended: on any non-empty successful text obtained from the
network (cache miss), `call_gemini` stores the text in the cache with the
fixed TTL 900 and returns it, but does not touch the circuit breaker; the
failure-counter reset lives only in the unused legacy `chat` path. -/
theorem C7_amended_success_caches_no_breaker (hasClient : Bool) (net : Nat → GemOutcome)
    (maxRetries : Nat) (t : PStr)
    (h : (call_gemini hasClient none net maxRetries).1 = some t) :
    ClientEff.cacheSet t 900 ∈ (call_gemini hasClient none net maxRetries).2 ∧
    ClientEff.breakerSuccess ∉ (call_gemini hasClient none net maxRetries).2 := by
  cases hasClient with
  | false => exact absurd h (by simp [call_gemini])
  | true =>
    have h' : (gemLoop net maxRetries 1 (maxRetries + 1)).1 = some t := h
    exact gemLoop_success_cache net maxRetries (maxRetries + 1) 1 t h'

/-- C7 witness: a concrete successful call — the 900-second cache write is
in the trace and no breaker reset is. -/
theorem C7_amended_witness :
    ClientEff.cacheSet (strL "ok") 900 ∈
      (call_gemini true none (fun _ => GemOutcome.ok (strL "ok")) 2).2 ∧
    ClientEff.breakerSuccess ∉
      (call_gemini true none (fun _ => GemOutcome.ok (strL "ok")) 2).2 :=
  C7_amended_success_caches_no_breaker true (fun _ => GemOutcome.ok (strL "ok")) 2
    (strL "ok") rfl

/-- The attempt loop performs at most `remaining` provider calls and
every call's sampled time is below the deadline (the check precedes each
call). -/
theorem runApiLoopGo_calls (env : ApiEnv) (api initialPrompt : PStr) (mi deadline : Nat) :
    ∀ remaining iteration prompt history,
      (runApiLoopGo env api initialPrompt mi deadline iteration remaining
        prompt history).2.length ≤ remaining ∧
      ∀ c ∈ (runApiLoopGo env api initialPrompt mi deadline iteration remaining
        prompt history).2, c.time < deadline := by
  intro remaining
  induction remaining with
  | zero =>
    intro iteration prompt history
    simp [runApiLoopGo]
  | succ r ih =>
    intro iteration prompt history
    by_cases hd : deadline ≤ env.clock (iteration + 1)
    · simp only [runApiLoopGo, if_pos hd]
      simp
    · have ht : env.clock (iteration + 1) < deadline := Nat.lt_of_not_le hd
      by_cases hk : knownApi api = true
      · cases hr : env.reply (iteration + 1) with
        | none =>
          simp only [runApiLoopGo, if_neg hd, if_pos hk, hr]
          refine ⟨by simp, ?_⟩
          intro c hc
          rw [List.mem_singleton.mp hc]
          exact ht
        | some o =>
          by_cases ho : o = []
          · simp only [runApiLoopGo, if_neg hd, if_pos hk, hr, if_pos ho]
            refine ⟨by simp, ?_⟩
            intro c hc
            rw [List.mem_singleton.mp hc]
            exact ht
          · by_cases hfa : (parse_response o).type = strL "final_answer"
            · simp only [runApiLoopGo, if_neg hd, if_pos hk, hr, if_neg ho, if_pos hfa]
              refine ⟨by simp, ?_⟩
              intro c hc
              rw [List.mem_singleton.mp hc]
              exact ht
            · by_cases hcode :
                  (parse_response o).type = strL "code" ∧ (parse_response o).code_blocks ≠ []
              · simp only [runApiLoopGo, if_neg hd, if_pos hk, hr, if_neg ho, if_neg hfa,
                  if_pos hcode]
                obtain ⟨ihlen, ihmem⟩ := ih (iteration + 1)
                  (build_feedback_prompt initialPrompt
                    (history ++ [historyEntry (iteration + 1) o (env.execR (iteration + 1))]))
                  (history ++ [historyEntry (iteration + 1) o (env.execR (iteration + 1))])
                refine ⟨by simpa using Nat.succ_le_succ ihlen, ?_⟩
                intro c hc
                rcases List.mem_cons.mp hc with hc | hc
                · rw [hc]; exact ht
                · exact ihmem c hc
              · simp only [runApiLoopGo, if_neg hd, if_pos hk, hr, if_neg ho, if_neg hfa,
                  if_neg hcode]
                obtain ⟨ihlen, ihmem⟩ := ih (iteration + 1)
                  (continuationPrompt initialPrompt o) history
                refine ⟨by simpa using Nat.succ_le_succ ihlen, ?_⟩
                intro c hc
                rcases List.mem_cons.mp hc with hc | hc
                · rw [hc]; exact ht
                · exact ihmem c hc
      · simp only [runApiLoopGo, if_neg hd, if_neg hk]
        simp

/-- C2: an attempt against one provider performs at most the configured
maximum number of provider calls, and the deadline check sampled before
each call ensures no call happens at or after the attempt's deadline
`t0 + budget`. -/
theorem C2_attempt_bounded_and_deadline (env : ApiEnv) (api initialPrompt : PStr)
    (mi budget : Nat) :
    (run_api_loop env api initialPrompt mi budget).2.length ≤ mi ∧
    ∀ c ∈ (run_api_loop env api initialPrompt mi budget).2,
      c.time < env.t0 + budget :=
  runApiLoopGo_calls env api initialPrompt mi (env.t0 + budget) mi 0 initialPrompt []

/-- C2 witness: a concrete attempt whose single provider call happened at
time 5, before the deadline 300. -/
theorem C2_witness :
    (run_api_loop
        (ApiEnv.mk 0 (fun _ => 5) (fun _ => some (strL "\x7b\"final answer\": \"1\"\x7d"))
          (fun _ => ExecResultO.mk true [] []))
        (strL "gemini") (strL "q") 9 300).2.length ≤ 9 ∧
    (ProviderCall.mk (strL "gemini") 1 5).time < 0 + 300 :=
  ⟨(C2_attempt_bounded_and_deadline
      (ApiEnv.mk 0 (fun _ => 5) (fun _ => some (strL "\x7b\"final answer\": \"1\"\x7d"))
        (fun _ => ExecResultO.mk true [] []))
      (strL "gemini") (strL "q") 9 300).1,
   (C2_attempt_bounded_and_deadline
      (ApiEnv.mk 0 (fun _ => 5) (fun _ => some (strL "\x7b\"final answer\": \"1\"\x7d"))
        (fun _ => ExecResultO.mk true [] []))
      (strL "gemini") (strL "q") 9 300).2
     (ProviderCall.mk (strL "gemini") 1 5) (by decide)⟩

/-- One iteration step of the attempt loop when the provider reply parses
as a final answer: the attempt succeeds at once with a single recorded
call. -/
theorem runApiLoopGo_fa_step (env : ApiEnv) (api initialPrompt : PStr)
    (mi deadline iteration r : Nat) (prompt : PStr) (history : List PStr)
    (hk : knownApi api = true)
    (ht : env.clock (iteration + 1) < deadline)
    (o : PStr) (hr : env.reply (iteration + 1) = some o) (ho : o ≠ [])
    (hfa : (parse_response o).type = strL "final_answer") :
    runApiLoopGo env api initialPrompt mi deadline iteration (r + 1) prompt history =
      (successResult api (iteration + 1) (parse_response o) o,
       [⟨api, iteration + 1, env.clock (iteration + 1)⟩]) := by
  simp only [runApiLoopGo, if_neg (Nat.not_le.mpr ht), if_pos hk, hr]
  rw [if_neg ho, if_pos hfa]

/-- C6: providers are tried in the fixed order nvidia, gemini, openai; if
the first provider's reply on iteration 1 is a valid final answer (and
the deadline has not passed), the whole feedback loop returns that
attempt's success result and the invocation trace holds exactly the one
call to the first provider — no later provider is ever invoked. -/
theorem C6_first_final_answer_wins (envOf : PStr → ApiEnv) (first_prompt : PStr)
    (hclock : (envOf (strL "nvidia")).clock 1 <
      (envOf (strL "nvidia")).t0 + global_budget_sec)
    (o : PStr) (hreply : (envOf (strL "nvidia")).reply 1 = some o) (ho : o ≠ [])
    (hfa : (parse_response o).type = strL "final_answer") :
    (feedback_loop envOf first_prompt).2 =
      [⟨strL "nvidia", 1, (envOf (strL "nvidia")).clock 1⟩] ∧
    (feedback_loop envOf first_prompt).1 =
      successResult (strL "nvidia") 1 (parse_response o) o := by
  have hstep := runApiLoopGo_fa_step (envOf (strL "nvidia")) (strL "nvidia") first_prompt
    (8 + 1) ((envOf (strL "nvidia")).t0 + global_budget_sec) 0 8 first_prompt []
    (by decide) hclock o hreply ho hfa
  unfold feedback_loop feedbackGo run_api_loop
  rw [show (max_iterations : Nat) = 8 + 1 from rfl, hstep]
  have hg : getSuccess (successResult (strL "nvidia") 1 (parse_response o) o) = true := rfl
  rw [if_pos hg]
  exact ⟨rfl, rfl⟩

/-- C6 witness: every provider would answer, but only nvidia (first in
order) is invoked, once. -/
theorem C6_witness :
    (feedback_loop
        (fun _ => ApiEnv.mk 0 (fun _ => 1)
          (fun _ => some (strL "\x7b\"final answer\": \"9\"\x7d"))
          (fun _ => ExecResultO.mk true [] []))
        (strL "q")).2 = [⟨strL "nvidia", 1, 1⟩] ∧
    (feedback_loop
        (fun _ => ApiEnv.mk 0 (fun _ => 1)
          (fun _ => some (strL "\x7b\"final answer\": \"9\"\x7d"))
          (fun _ => ExecResultO.mk true [] []))
        (strL "q")).1 =
      successResult (strL "nvidia") 1
        (parse_response (strL "\x7b\"final answer\": \"9\"\x7d"))
        (strL "\x7b\"final answer\": \"9\"\x7d") :=
  C6_first_final_answer_wins
    (fun _ => ApiEnv.mk 0 (fun _ => 1)
      (fun _ => some (strL "\x7b\"final answer\": \"9\"\x7d"))
      (fun _ => ExecResultO.mk true [] []))
    (strL "q") (by decide) (strL "\x7b\"final answer\": \"9\"\x7d") rfl (by decide) rfl

/-- The three key lists the attempt loop's result dicts can have. -/
theorem runApiLoopGo_keys (env : ApiEnv) (api initialPrompt : PStr) (mi deadline : Nat) :
    ∀ remaining iteration prompt history,
      rKeys (runApiLoopGo env api initialPrompt mi deadline iteration remaining
        prompt history).1 ∈
        ([[strL "success", strL "final_answer", strL "api_used", strL "iterations",
           strL "parsed", strL "raw_output"],
          [strL "success", strL "error", strL "final_answer"],
          [strL "success", strL "error"]] : List (List PStr)) := by
  intro remaining
  induction remaining with
  | zero =>
    intro iteration prompt history
    simp [runApiLoopGo, rKeys, maxIterResult]
  | succ r ih =>
    intro iteration prompt history
    by_cases hd : deadline ≤ env.clock (iteration + 1)
    · simp only [runApiLoopGo, if_pos hd]
      simp [rKeys, deadlineResult]
    · by_cases hk : knownApi api = true
      · cases hr : env.reply (iteration + 1) with
        | none =>
          simp only [runApiLoopGo, if_neg hd, if_pos hk, hr]
          simp [rKeys, apiNoneResult]
        | some o =>
          by_cases ho : o = []
          · simp only [runApiLoopGo, if_neg hd, if_pos hk, hr, if_pos ho]
            simp [rKeys, apiNoneResult]
          · by_cases hfa : (parse_response o).type = strL "final_answer"
            · simp only [runApiLoopGo, if_neg hd, if_pos hk, hr, if_neg ho, if_pos hfa]
              simp [rKeys, successResult]
            · by_cases hcode :
                  (parse_response o).type = strL "code" ∧ (parse_response o).code_blocks ≠ []
              · simp only [runApiLoopGo, if_neg hd, if_pos hk, hr, if_neg ho, if_neg hfa,
                  if_pos hcode]
                exact ih (iteration + 1) _ _
              · simp only [runApiLoopGo, if_neg hd, if_pos hk, hr, if_neg ho, if_neg hfa,
                  if_neg hcode]
                exact ih (iteration + 1) _ _
      · simp only [runApiLoopGo, if_neg hd, if_neg hk]
        simp [rKeys, unknownApiResult]

/-- Key lists of the provider loop of `feedback_loop`, over any remaining
API list. -/
theorem feedbackGo_keys (envOf : PStr → ApiEnv) (first_prompt : PStr) :
    ∀ apis, rKeys (feedbackGo envOf first_prompt apis).1 ∈
        ([[strL "success", strL "final_answer", strL "api_used", strL "iterations",
           strL "parsed", strL "raw_output"],
          [strL "success", strL "error", strL "final_answer"],
          [strL "success", strL "error"]] : List (List PStr)) := by
  intro apis
  induction apis with
  | nil => simp [feedbackGo, rKeys, allFailedResult]
  | cons api rest ih =>
    simp only [feedbackGo]
    by_cases hg : getSuccess (run_api_loop (envOf api) api first_prompt
        max_iterations global_budget_sec).1 = true
    · rw [if_pos hg]
      exact runApiLoopGo_keys (envOf api) api first_prompt max_iterations
        ((envOf api).t0 + global_budget_sec) max_iterations 0 first_prompt []
    · rw [if_neg hg]
      exact ih

/-- C8 amended: the core's results do not share one five-field shape;
instead every `feedback_loop` result has exactly one of three key lists —
success results carry `success, final_answer, api_used, iterations,
parsed, raw_output` (and no `error`), most failures carry
`success, error, final_answer`, and the unknown-API / provider-`None`
failures carry only `success, error`. -/
theorem C8_amended_result_shapes (envOf : PStr → ApiEnv) (first_prompt : PStr) :
    rKeys (feedback_loop envOf first_prompt).1 ∈
      ([[strL "success", strL "final_answer", strL "api_used", strL "iterations",
         strL "parsed", strL "raw_output"],
        [strL "success", strL "error", strL "final_answer"],
        [strL "success", strL "error"]] : List (List PStr)) :=
  feedbackGo_keys envOf first_prompt [strL "nvidia", strL "gemini", strL "openai"]

/-- C8 counterexample: when every provider fails, the result's keys are
`success, error, final_answer` — `api_used` and `iterations` are absent,
so the claimed five-field shape does not hold. -/
theorem C8_counterexample :
    rKeys (feedback_loop
        (fun _ => ApiEnv.mk 0 (fun _ => 1) (fun _ => none)
          (fun _ => ExecResultO.mk true [] []))
        (strL "q")).1 = [strL "success", strL "error", strL "final_answer"] ∧
    strL "api_used" ∉
      rKeys (feedback_loop
        (fun _ => ApiEnv.mk 0 (fun _ => 1) (fun _ => none)
          (fun _ => ExecResultO.mk true [] []))
        (strL "q")).1 :=
  ⟨rfl, by decide⟩

/-- Embedding fact: `_cleanup_container` always leaves both session globals cleared. -/
theorem cleanup_container_state (st : ExecState) :
    (cleanup_container st).1 = ExecState.mk none none := by
  rcases st with ⟨ac, wd⟩
  cases ac <;> cases wd <;> rfl

/-- C5 counterexample: with a session active and `keep_container_open =
true`, a timeout leaves the session fully intact — no stop, no removal,
no workspace deletion — contradicting the claimed unconditional teardown
on timeout. -/
theorem C5_counterexample :
    (run_code (ExecState.mk (some (strL "c1")) (some (strL "w1"))) (strL "print(1)") []
        true (strL "w2") (strL "c2") RunOutcome.raisesTimeout).2.1 =
      ExecState.mk (some (strL "c1")) (some (strL "w1")) ∧
    (run_code (ExecState.mk (some (strL "c1")) (some (strL "w1"))) (strL "print(1)") []
        true (strL "w2") (strL "c2") RunOutcome.raisesTimeout).1 =
      RunResult.mk false [] (strL "Execution timed out.") ∧
    ExecEff.dockerStop (strL "c1") ∉
      (run_code (ExecState.mk (some (strL "c1")) (some (strL "w1"))) (strL "print(1)") []
        true (strL "w2") (strL "c2") RunOutcome.raisesTimeout).2.2 :=
  ⟨rfl, rfl, by decide⟩

/-- C5 amended: teardown is governed solely by `keep_container_open`, in
every outcome (normal completion, timeout, other exception) alike: when
the flag is false the session is fully torn down, and when it is true the
session survives — including on timeout and on unhandled errors. -/
theorem C5_amended_teardown_iff_flag (st : ExecState) (code : PStr) (stdlib : List PStr)
    (keep : Bool) (newWd newCid : PStr) (outcome : RunOutcome) :
    (keep = false →
      (run_code st code stdlib keep newWd newCid outcome).2.1 = ExecState.mk none none) ∧
    (keep = true →
      (run_code st code stdlib keep newWd newCid outcome).2.1 =
        (if st.active_container = none then ExecState.mk (some newCid) (some newWd)
         else st)) := by
  constructor
  · intro hk
    subst hk
    cases outcome <;>
      simp [run_code, cleanup_container_state]
  · intro hk
    subst hk
    by_cases hac : st.active_container = none <;>
      cases outcome <;>
        simp [run_code, hac]

/-- C5 witness: with the flag false, a timeout on an active session does
tear everything down. -/
theorem C5_amended_witness :
    (run_code (ExecState.mk (some (strL "c1")) (some (strL "w1"))) (strL "x=1") []
        false (strL "w2") (strL "c2") RunOutcome.raisesTimeout).2.1 =
      ExecState.mk none none :=
  (C5_amended_teardown_iff_flag (ExecState.mk (some (strL "c1")) (some (strL "w1")))
    (strL "x=1") [] false (strL "w2") (strL "c2") RunOutcome.raisesTimeout).1 rfl

end AnalystAgent
